import Mathlib

/-!
Verification of the numerical core of the hedgie-agent options-analytics
pipeline: a shallow embedding of the risk calculator, the Black-Scholes
delta calculator, the RSI indicator, the Monte Carlo VaR percentile, the
instrument parsers, and the block-trade aggregation stage, together with
theorems settling the specified properties.

Modelling conventions:
- Python floats are modelled as `ℝ` where transcendental functions
  (`math.log`, `math.sqrt`, `scipy.stats.norm.cdf`) occur, and as `ℚ`
  where all arithmetic is field arithmetic, so the definitions stay
  executable there.
- `scipy.stats.norm.cdf` is an external library function; it enters the
  model as an explicit function parameter `Phi : ℝ → ℝ`.
- Python `None` results and caught exceptions become `Option`.
- `pandas` series with NaN entries become `List (Option ℚ)`; a NaN is
  `none`.
-/

namespace OptionsCalculator

/-- Embeds the dataclass `OptionMetrics` of `src/tools/options_calculator.py`. -/
structure OptionMetrics where
  delta : ℝ
  current_price : ℝ
  strike : ℝ
  days_to_expiry : ℤ
  volatility : ℝ
  option_type : String
  rate : ℝ

/-- Embeds `OptionsCalculator.calculate_delta`.  The `days_to_expiry`
argument stands for the Python expression `(expiry_date - datetime.now()).days`
(an integer number of days); `Phi` stands for `scipy.stats.norm.cdf`.
The first guard embeds `not all([current_price, strike, expiry_date,
volatility])` (a `datetime` object is always truthy, so only the three
floats can be falsy, exactly when they are `0`).  The guard on
`current_price / strike ≤ 0` embeds the `ValueError` raised by `math.log`
on a non-positive argument, which the surrounding `try` turns into `None`. -/
noncomputable def calculate_delta (Phi : ℝ → ℝ) (rate : ℝ)
    (current_price strike : ℝ) (days_to_expiry : ℤ)
    (volatility : ℝ) (option_type : String) : Option OptionMetrics :=
  if current_price = 0 ∨ strike = 0 ∨ volatility = 0 then none
  else
    let T : ℝ := (days_to_expiry : ℝ) / 365
    if T ≤ 0 then none
    else if current_price / strike ≤ 0 then none
    else
      let sigma : ℝ := if 1 < volatility then volatility / 100 else volatility
      let d1 : ℝ := (Real.log (current_price / strike) +
        (rate + 0.5 * sigma ^ 2) * T) / (sigma * Real.sqrt T)
      if option_type = "C" then
        some ⟨Phi d1, current_price, strike, days_to_expiry, volatility,
          option_type, rate⟩
      else if option_type = "P" then
        some ⟨Phi d1 - 1, current_price, strike, days_to_expiry, volatility,
          option_type, rate⟩
      else none

/-- The volatility normalisation exactly as the specification words it:
values greater than 1 are divided by 100, values at most 1 are used as-is. -/
noncomputable def spec_sigma (volatility : ℝ) : ℝ :=
  if 1 < volatility then volatility / 100 else volatility

/-- The Black-Scholes `d1` term exactly as the specification words it:
`d1 = (ln(spot/strike) + (r + 0.5 σ^2) T) / (σ sqrt T)`. -/
noncomputable def spec_d1 (rate spot strike T sigma : ℝ) : ℝ :=
  (Real.log (spot / strike) + (rate + 0.5 * sigma ^ 2) * T) /
    (sigma * Real.sqrt T)

end OptionsCalculator

namespace RiskCalculator

/-- The successful result record of `RiskCalculator.calculate_position_size`
(the keys of the returned dict).  The source key `risk_reward_ratio`
(constant `2.0`) is embedded as the field `risk_reward`. -/
structure PositionSize where
  position_size : ℚ
  position_value : ℚ
  capital_percent : ℚ
  potential_loss : ℚ
  stop_loss_percent : ℚ
  risk_reward : ℚ
deriving DecidableEq

/-- `calculate_position_size` returns one of two dict shapes: an error
marker carrying `position_size = 0` and an `error` message, or the full
result. -/
inductive PositionSizeResult where
  | failure (position_size : ℚ) (msg : String)
  | ok (r : PositionSize)
deriving DecidableEq

/-- Embeds `RiskCalculator.calculate_position_size` of
`src/tools/risk_calculator.py`.  (For `capital = 0` the Python code would
raise `ZeroDivisionError`; over `ℚ` the division totalises to `0`.  The
claims only concern positive parameters.) -/
def calculate_position_size (capital max_risk_percent stop_loss_percent
    volatility_percent : ℚ) : PositionSizeResult :=
  if stop_loss_percent ≤ 0 ∨ volatility_percent ≤ 0 then
    .failure 0 "Некорректные параметры стоп-лосса или волатильности"
  else
    let max_risk_amount := capital * (max_risk_percent / 100)
    let adjusted_sl := stop_loss_percent * (1 + volatility_percent / 100)
    let position_size := max_risk_amount / (adjusted_sl / 100 * capital)
    let position_value := capital * position_size
    let potential_loss := position_value * (stop_loss_percent / 100)
    let capital_percent := position_size * 100
    .ok ⟨position_size, position_value, capital_percent, potential_loss,
      stop_loss_percent, 2⟩

end RiskCalculator

/-- A parsed calendar date (the result of
`datetime.strptime(expiration, '%d%b%y')`). -/
structure ExpiryDate where
  year : ℕ
  month : ℕ
  day : ℕ
deriving DecidableEq

namespace InstrumentParser

/-- Embeds `instrument_name.split("-")` on the character list of the
string: maximal runs between `'-'` separators, keeping empty runs. -/
def splitOnDash : List Char → List (List Char)
  | [] => [[]]
  | c :: cs =>
    match splitOnDash cs with
    | [] => [[]]
    | p :: ps => if c = '-' then [] :: p :: ps else (c :: p) :: ps

/-- Numeric value of a digit string, most significant digit first. -/
def digitsVal (cs : List Char) : ℕ :=
  cs.foldl (fun n c => 10 * n + (c.toNat - '0'.toNat)) 0

/-- Embeds Python `float(s)` on the numeric literals the instrument
grammar produces: an unsigned integer literal or an unsigned decimal
literal with one `'.'`.  (Python `float` also accepts signs, exponents and
surrounding whitespace; a STRIKE field of the grammar is a digit string.)
Any other input raises `ValueError`, modelled as `none`. -/
def parseFloat (cs : List Char) : Option ℚ :=
  match cs.span Char.isDigit with
  | (ds, []) => if ds = [] then none else some ((digitsVal ds : ℚ))
  | (ds, '.' :: fs) =>
    if fs.all Char.isDigit ∧ (ds ≠ [] ∨ fs ≠ []) then
      some ((digitsVal ds : ℚ) + (digitsVal fs : ℚ) / 10 ^ fs.length)
    else none
  | _ => none

/-- Month number of an abbreviated month name.  `strptime`'s `%b` matches
month abbreviations case-insensitively; instrument expirations are the
canonical uppercase forms, which is the domain modelled here. -/
def monthOfCode (cs : List Char) : Option ℕ :=
  if cs = ['J', 'A', 'N'] then some 1
  else if cs = ['F', 'E', 'B'] then some 2
  else if cs = ['M', 'A', 'R'] then some 3
  else if cs = ['A', 'P', 'R'] then some 4
  else if cs = ['M', 'A', 'Y'] then some 5
  else if cs = ['J', 'U', 'N'] then some 6
  else if cs = ['J', 'U', 'L'] then some 7
  else if cs = ['A', 'U', 'G'] then some 8
  else if cs = ['S', 'E', 'P'] then some 9
  else if cs = ['O', 'C', 'T'] then some 10
  else if cs = ['N', 'O', 'V'] then some 11
  else if cs = ['D', 'E', 'C'] then some 12
  else none

/-- Gregorian leap-year rule, used by `datetime` to validate the day. -/
def isLeap (y : ℕ) : Bool :=
  (y % 4 = 0 && y % 100 ≠ 0) || y % 400 = 0

/-- Number of days of month `m` of year `y`. -/
def daysInMonth (y m : ℕ) : ℕ :=
  if m = 2 then (if isLeap y then 29 else 28)
  else if m = 4 ∨ m = 6 ∨ m = 9 ∨ m = 11 then 30
  else 31

/-- Embeds `datetime.strptime(expiration, '%d%b%y')`: one or two day
digits, an abbreviated month name, exactly two year digits (`00`-`68`
mapping to `2000`-`2068`, `69`-`99` to `1969`-`1999`), with the day
validated against the month length.  Failure raises `ValueError`,
modelled as `none`. -/
def parseExpiration (cs : List Char) : Option ExpiryDate :=
  let (ds, rest) := cs.span Char.isDigit
  let (ms, rest2) := rest.span fun c => 'A' ≤ c && c ≤ 'Z'
  match monthOfCode ms with
  | none => none
  | some m =>
    if ds.length = 0 ∨ 2 < ds.length then none
    else if rest2.length = 2 ∧ rest2.all Char.isDigit then
      let d := digitsVal ds
      let yy := digitsVal rest2
      let y := if yy ≤ 68 then 2000 + yy else 1900 + yy
      if 1 ≤ d ∧ d ≤ daysInMonth y m then some ⟨y, m, d⟩ else none
    else none

/-- Embeds the dataclass `InstrumentInfo` of
`src/tools/instrument_parser.py`. -/
structure InstrumentInfo where
  asset : String
  expiration : String
  strike : ℚ
  option_type : String
  expiry_date : Option ExpiryDate
deriving DecidableEq

/-- Embeds `InstrumentParser.parse` of `src/tools/instrument_parser.py`:
split on `'-'`, read fields `parts[0] … parts[3]` (extra parts are
ignored, a missing part raises `IndexError`), convert the strike with
`float` and the expiration with `strptime`.  Every raised exception is
re-raised as `ValueError`; a raise is modelled as `none`. -/
def parse (instrument_name : String) : Option InstrumentInfo :=
  match splitOnDash instrument_name.data with
  | p0 :: p1 :: p2 :: p3 :: _ =>
    match parseFloat p2, parseExpiration p1 with
    | some strike, some d =>
      some ⟨String.mk p0, String.mk p1, strike, String.mk p3, some d⟩
    | _, _ => none
  | _ => none

end InstrumentParser

namespace TechnicalIndicators

/-- `np.finfo(float).eps`, the machine epsilon of a 64-bit float. -/
def machineEps : ℚ := 1 / 2 ^ 52

/-- Embeds `prices.diff()`: the first entry is NaN (`none`), entry `i+1`
is `prices[i+1] - prices[i]`. -/
def seriesDiff (prices : List ℚ) : List (Option ℚ) :=
  match prices with
  | [] => []
  | _ :: rest => none :: List.zipWith (fun a b => some (a - b)) rest prices

/-- Embeds `delta.where(delta > 0, 0)`: a NaN entry compares `False`
against `0` and is replaced by `0` as well. -/
def gainSeries (d : List (Option ℚ)) : List ℚ :=
  d.map fun o => match o with
    | some x => if 0 < x then x else 0
    | none => 0

/-- Embeds `-delta.where(delta < 0, 0)`. -/
def lossSeries (d : List (Option ℚ)) : List ℚ :=
  d.map fun o => match o with
    | some x => if x < 0 then -x else 0
    | none => 0

/-- Embeds `xs.rolling(window).mean()` on an all-defined series: entry `i`
is the mean of entries `i+1-window … i` once `window` entries are
available, NaN (`none`) before that (`min_periods` defaults to the window
size). -/
def rollingMean (window : ℕ) (xs : List ℚ) : List (Option ℚ) :=
  (List.range xs.length).map fun i =>
    if window ≤ i + 1 then
      some ((((xs.take (i + 1)).drop (i + 1 - window)).sum) / window)
    else none

/-- Embeds `loss.replace(0, eps)`: exact zeros are replaced, NaN entries
stay NaN. -/
def replaceZero (eps : ℚ) (xs : List (Option ℚ)) : List (Option ℚ) :=
  xs.map (Option.map fun x => if x = 0 then eps else x)

/-- Embeds `TechnicalIndicators.calculate_rsi` of
`src/tools/technical_indicators.py`: elementwise
`100 - 100 / (1 + gain / loss.replace(0, eps))`, with NaN propagating
through the elementwise arithmetic. -/
def calculate_rsi (prices : List ℚ) (window : ℕ) : List (Option ℚ) :=
  let d := seriesDiff prices
  let gain := rollingMean window (gainSeries d)
  let loss := replaceZero machineEps (rollingMean window (lossSeries d))
  List.zipWith (fun g l => match g, l with
    | some g, some l => some (100 - 100 / (1 + g / l))
    | _, _ => none) gain loss

end TechnicalIndicators

namespace RiskCalculator

/-- Embeds `np.percentile(xs, q)` with the default linear interpolation:
on the sorted data `s` of length `n`, the virtual index is
`h = q/100 * (n-1)` and the result interpolates between `s[⌊h⌋]` and
`s[⌈h⌉]`.  (`np.percentile` of an empty array raises; the claims only use
non-empty samples, and the model returns `0` there.) -/
def sortedInterp (s : List ℚ) (h : ℚ) : ℚ :=
  s.getD (⌊h⌋).toNat 0 +
    (h - ⌊h⌋) * (s.getD (⌈h⌉).toNat 0 - s.getD (⌊h⌋).toNat 0)

def percentile (xs : List ℚ) (q : ℚ) : ℚ :=
  let s := List.insertionSort (· ≤ ·) xs
  if s.length = 0 then 0
  else sortedInterp s (q / 100 * ((s.length : ℚ) - 1))

/-- Embeds `RiskCalculator.calculate_var_monte_carlo` from the point where
the simulated sample is fixed: the `np.random.normal` draw is external
randomness, so the model takes the drawn sample `random_returns` as an
argument (claim C6 quantifies over "a fixed draw of simulated returns").
VaR is `abs(np.percentile(random_returns, 100 * (1 - confidence_level)))`. -/
def calculate_var_monte_carlo (random_returns : List ℚ)
    (confidence_level : ℚ) : ℚ :=
  |percentile random_returns (100 * (1 - confidence_level))|

end RiskCalculator

namespace Trade

/-- Embeds the NamedTuple `InstrumentInfo` of `src/models/trade.py`
(distinct from the parser dataclass: the strike is an `int` here). -/
structure TradeInstrumentInfo where
  asset : String
  expiration : String
  strike : ℕ
  option_type : String
deriving DecidableEq

/-- Outcome of `Trade.parse_instrument_name`: either a parsed
`InstrumentInfo`, or the `NameError` described at `nameError` below. -/
inductive ParseNameResult where
  | ok (info : TradeInstrumentInfo)
  | nameError
deriving DecidableEq

/-- A character of Python's regex class `\w` (ASCII range, which covers
instrument names). -/
def isWordChar (c : Char) : Bool :=
  c.isAlpha || c.isDigit || c = '_'

/-- Embeds `re.match(r"(\w+)-(\d+[A-Z]+\d+)-(\d+)-([CP])", s)`.  None of
the classes `\w`, `\d`, `[A-Z]`, `[CP]` matches `'-'`, so each group
extends exactly to the next literal `'-'` and greedy maximal munch is the
unique match; `re.match` anchors only the start, so trailing characters
after the `[CP]` character are ignored. -/
def matchInstrumentPattern (cs : List Char) :
    Option (List Char × List Char × List Char × Char) :=
  let (w, r1) := cs.span isWordChar
  if w = [] then none
  else
    match r1 with
    | '-' :: r2 =>
      let (d1, r3) := r2.span Char.isDigit
      let (u, r4) := r3.span fun c => 'A' ≤ c && c ≤ 'Z'
      let (d2, r5) := r4.span Char.isDigit
      if d1 = [] ∨ u = [] ∨ d2 = [] then none
      else
        match r5 with
        | '-' :: r6 =>
          let (d3, r7) := r6.span Char.isDigit
          if d3 = [] then none
          else
            match r7 with
            | '-' :: t :: _ =>
              if t = 'C' ∨ t = 'P' then
                some (w, d1 ++ u ++ d2, d3, t)
              else none
            | _ => none
        | _ => none
    | _ => none

/-- Embeds `Trade.parse_instrument_name` of `src/models/trade.py` (for a
trade with no cached parse).  On a match the groups are packed into the
NamedTuple with `int(strike)`.  On a failed match the source executes
`logger.error(...)` before building its fallback `InstrumentInfo`, but
`trade.py` never imports or defines `logger`, so that line raises
`NameError` and the fallback is never returned; the raise is modelled as
`ParseNameResult.nameError`. -/
def parse_instrument_name (instrument_name : String) : ParseNameResult :=
  match matchInstrumentPattern instrument_name.data with
  | some (a, e, k, t) =>
    .ok ⟨String.mk a, String.mk e, InstrumentParser.digitsVal k,
      String.mk [t]⟩
  | none => .nameError

/-- The fallback value the fallback branch of `parse_instrument_name`
builds (and its docstring and comment promise): asset from the first
`'-'`-separated segment, placeholder expiration, zero strike, placeholder
option type.  Because of the undefined `logger` this value is unreachable
in the source as written. -/
def intendedFallback (instrument_name : String) : TradeInstrumentInfo :=
  ⟨String.mk ((InstrumentParser.splitOnDash instrument_name.data).headD []),
    "UNKNOWN", 0, "?"⟩

end Trade

namespace BlockTrades

open OptionsCalculator InstrumentParser

/-- The fields of a raw trade row that
`BlockTradesAnalyzer._analyze_data` reads. -/
structure TradeRow where
  instrument_name : String
  index_price : ℝ
  amount : ℝ
  iv : ℝ

/-- A trade that survived `_analyze_data`: the row together with the
`metrics` and `instrument_info` entries the stage attaches to it. -/
structure AnalyzedTrade where
  row : TradeRow
  metrics : OptionMetrics
  info : InstrumentInfo

/-- Embeds `BlockTradesAnalyzer._analyze_data` of
`src/stages/stage_1/block_trades.py`: for each trade, parse the
instrument (`tools.parse_instrument` is `InstrumentParser.parse`; its
`ValueError` is caught by the stage's `try` and the trade is skipped) and
compute the delta; trades without computed metrics are skipped.
`daysFromNow` stands for `(expiry_date - datetime.now()).days` and `Phi`
for `scipy.stats.norm.cdf`; an absent expiry date would make
`calculate_delta`'s truthiness check fail, so it skips the trade. -/
noncomputable def analyzeData (Phi : ℝ → ℝ) (rate : ℝ)
    (daysFromNow : ExpiryDate → ℤ) (trades : List TradeRow) :
    List AnalyzedTrade :=
  trades.filterMap fun trade =>
    match parse trade.instrument_name with
    | none => none
    | some info =>
      match info.expiry_date with
      | none => none
      | some d =>
        match calculate_delta Phi rate trade.index_price (info.strike : ℝ)
            (daysFromNow d) trade.iv info.option_type with
        | none => none
        | some m => some ⟨trade, m, info⟩

/-- The aggregate dict `_prepare_results` builds; `strategy_analysis` is
the opaque result of the external `tools.analyze_strategies` call and the
wall-clock `timestamp` is dropped. -/
structure BlockTradesStats (α : Type) where
  total_trades : ℕ
  calls_count : ℕ
  puts_count : ℕ
  total_delta : ℝ
  call_volume : ℝ
  put_volume : ℝ
  strategy_analysis : α

/-- `_prepare_results` returns either `{'status': 'no_data'}` or the
aggregate dict. -/
inductive BlockTradesResult (α : Type) where
  | noData
  | results (stats : BlockTradesStats α)

/-- Embeds `BlockTradesAnalyzer._prepare_results`:
group by option type, count, and sum the delta-weighted amounts.
`strategyAnalysis` stands for the external `tools.analyze_strategies`. -/
noncomputable def prepareResults {α : Type}
    (strategyAnalysis : List AnalyzedTrade → α)
    (trades : List AnalyzedTrade) : BlockTradesResult α :=
  if trades.isEmpty then .noData
  else
    let calls := trades.filter fun t => t.info.option_type = "C"
    let puts := trades.filter fun t => t.info.option_type = "P"
    .results ⟨trades.length, calls.length, puts.length,
      (trades.map fun t => t.metrics.delta * t.row.amount).sum,
      (calls.map fun t => t.row.amount).sum,
      (puts.map fun t => t.row.amount).sum,
      strategyAnalysis trades⟩

/-- The invariant of claim C10 on a stage result: when the stage reports
aggregates, the call count and the put count add up to the number of
analysed trades. -/
def callsPutsConsistent {α : Type} : BlockTradesResult α → Prop
  | .noData => True
  | .results stats => stats.calls_count + stats.puts_count = stats.total_trades

end BlockTrades

/-! ## Theorems -/

open OptionsCalculator RiskCalculator TechnicalIndicators InstrumentParser

/-- C1: for positive spot, strike and volatility and an unexpired expiry
(`T > 0`, i.e. a positive day count), `calculate_delta` normalises the
volatility (divides by 100 iff it exceeds 1), forms
`d1 = (ln(spot/strike) + (rate + 0.5 σ²) T) / (σ √T)` with
`T = days_to_expiry / 365`, and returns `Φ(d1)` for a call and
`Φ(d1) - 1` for a put. -/
theorem calculate_delta_spec (Phi : ℝ → ℝ) (rate current_price strike : ℝ)
    (days_to_expiry : ℤ) (volatility : ℝ) (option_type : String)
    (hs : 0 < current_price) (hk : 0 < strike) (hd : 0 < days_to_expiry)
    (hv : 0 < volatility) (hty : option_type = "C" ∨ option_type = "P") :
    calculate_delta Phi rate current_price strike days_to_expiry volatility
      option_type =
      some ⟨(if option_type = "C" then
          Phi (spec_d1 rate current_price strike ((days_to_expiry : ℝ) / 365)
            (spec_sigma volatility))
        else
          Phi (spec_d1 rate current_price strike ((days_to_expiry : ℝ) / 365)
            (spec_sigma volatility)) - 1),
        current_price, strike, days_to_expiry, volatility, option_type,
        rate⟩ := by
  have h1 : ¬(current_price = 0 ∨ strike = 0 ∨ volatility = 0) := by
    push_neg
    exact ⟨hs.ne', hk.ne', hv.ne'⟩
  have hT : ¬((days_to_expiry : ℝ) / 365 ≤ 0) := by
    rw [not_le]
    exact div_pos (by exact_mod_cast hd) (by norm_num)
  have hr : ¬(current_price / strike ≤ 0) := by
    rw [not_le]
    exact div_pos hs hk
  rcases hty with h | h <;>
    simp [calculate_delta, h1, hT, hr, h, spec_d1, spec_sigma]

/-- Witness for C1 at a concrete input. -/
theorem calculate_delta_spec_witness :
    (0 : ℝ) < 100 ∧ (0 : ℝ) < 110 ∧ (0 : ℤ) < 30 ∧ (0 : ℝ) < 1 / 2 ∧
      calculate_delta (fun _ => 0) 0 100 110 30 (1 / 2) "C" =
        some ⟨(if ("C" : String) = "C" then
            (fun _ => (0 : ℝ))
              (spec_d1 0 100 110 (((30 : ℤ) : ℝ) / 365) (spec_sigma (1 / 2)))
          else
            (fun _ => (0 : ℝ))
              (spec_d1 0 100 110 (((30 : ℤ) : ℝ) / 365) (spec_sigma (1 / 2)))
              - 1),
          100, 110, 30, 1 / 2, "C", 0⟩ :=
  ⟨by norm_num, by norm_num, by norm_num, by norm_num,
    calculate_delta_spec (fun _ => 0) 0 100 110 30 (1 / 2) "C"
      (by norm_num) (by norm_num) (by norm_num) (by norm_num) (Or.inl rfl)⟩

/-- C3: `calculate_delta` returns `none` (and never raises — the
embedding is a total function into `Option`) whenever spot, strike or
volatility is zero, whenever the day count makes `T ≤ 0`, whenever the
remaining failure mode (`math.log` on a non-positive ratio) occurs, and
whenever the option type is neither `"C"` nor `"P"`. -/
theorem calculate_delta_none (Phi : ℝ → ℝ) (rate current_price strike : ℝ)
    (days_to_expiry : ℤ) (volatility : ℝ) (option_type : String)
    (h : current_price = 0 ∨ strike = 0 ∨ volatility = 0 ∨
      days_to_expiry ≤ 0 ∨ current_price / strike ≤ 0 ∨
      (option_type ≠ "C" ∧ option_type ≠ "P")) :
    calculate_delta Phi rate current_price strike days_to_expiry volatility
      option_type = none := by
  simp only [calculate_delta]
  split_ifs with h1 h2 h3 h4 h5 <;> try rfl
  all_goals exfalso
  all_goals rcases h with h | h | h | h | h | ⟨hC, hP⟩
  · exact h1 (Or.inl h)
  · exact h1 (Or.inr (Or.inl h))
  · exact h1 (Or.inr (Or.inr h))
  · refine h2 (div_nonpos_iff.mpr (Or.inr ⟨?_, by norm_num⟩))
    exact_mod_cast h
  · exact h3 h
  · exact hC h4
  · exact h1 (Or.inl h)
  · exact h1 (Or.inr (Or.inl h))
  · exact h1 (Or.inr (Or.inr h))
  · refine h2 (div_nonpos_iff.mpr (Or.inr ⟨?_, by norm_num⟩))
    exact_mod_cast h
  · exact h3 h
  · exact hP h5

/-- Witness for C3 at a concrete input. -/
theorem calculate_delta_none_witness :
    ((0 : ℝ) = 0 ∨ (100 : ℝ) = 0 ∨ (1 / 2 : ℝ) = 0 ∨ (30 : ℤ) ≤ 0 ∨
        (0 : ℝ) / 100 ≤ 0 ∨ (("C" : String) ≠ "C" ∧ ("C" : String) ≠ "P")) ∧
      calculate_delta (fun _ => 0) 0 0 100 30 (1 / 2) "C" = none :=
  ⟨Or.inl rfl,
    calculate_delta_none (fun _ => 0) 0 0 100 30 (1 / 2) "C" (Or.inl rfl)⟩

/-- C7: whenever `calculate_delta` succeeds for both option types on the
same inputs, the call delta exceeds the put delta by exactly 1. -/
theorem call_put_delta_identity (Phi : ℝ → ℝ) (rate current_price strike : ℝ)
    (days_to_expiry : ℤ) (volatility : ℝ) (mc mp : OptionMetrics)
    (hc : calculate_delta Phi rate current_price strike days_to_expiry
      volatility "C" = some mc)
    (hp : calculate_delta Phi rate current_price strike days_to_expiry
      volatility "P" = some mp) :
    mc.delta - mp.delta = 1 := by
  simp [calculate_delta] at hc hp
  obtain ⟨-, -, -, hc⟩ := hc
  obtain ⟨-, -, -, hp⟩ := hp
  rw [← hc, ← hp]
  simp

/-- Witness for C7 at a concrete input. -/
theorem call_put_delta_identity_witness :
    calculate_delta (fun _ => 0) 0 1 1 365 (1 / 2) "C" =
        some ⟨0, 1, 1, 365, 1 / 2, "C", 0⟩ ∧
      calculate_delta (fun _ => 0) 0 1 1 365 (1 / 2) "P" =
        some ⟨0 - 1, 1, 1, 365, 1 / 2, "P", 0⟩ ∧
      (OptionMetrics.mk 0 1 1 365 (1 / 2) "C" 0).delta -
        (OptionMetrics.mk (0 - 1) 1 1 365 (1 / 2) "P" 0).delta = 1 := by
  have hc : calculate_delta (fun _ => 0) 0 1 1 365 (1 / 2) "C" =
      some ⟨0, 1, 1, 365, 1 / 2, "C", 0⟩ := by
    norm_num [calculate_delta]
  have hp : calculate_delta (fun _ => 0) 0 1 1 365 (1 / 2) "P" =
      some ⟨0 - 1, 1, 1, 365, 1 / 2, "P", 0⟩ := by
    norm_num [calculate_delta]
    try decide
  exact ⟨hc, hp,
    call_put_delta_identity (fun _ => 0) 0 1 1 365 (1 / 2) _ _ hc hp⟩

/-- C2: for positive stop-loss and volatility percents,
`calculate_position_size` returns the position fraction
`(capital · max_risk/100) / (adjusted_sl/100 · capital)` with
`adjusted_sl = stop_loss · (1 + volatility/100)`, the potential loss
`position_value · stop_loss/100` computed from the unadjusted stop-loss
percent, and the constant risk/reward recommendation 2. -/
theorem calculate_position_size_spec (capital max_risk_percent
    stop_loss_percent volatility_percent : ℚ)
    (h1 : 0 < stop_loss_percent) (h2 : 0 < volatility_percent) :
    calculate_position_size capital max_risk_percent stop_loss_percent
      volatility_percent =
      .ok ⟨(capital * (max_risk_percent / 100)) /
          (stop_loss_percent * (1 + volatility_percent / 100) / 100 * capital),
        capital * ((capital * (max_risk_percent / 100)) /
          (stop_loss_percent * (1 + volatility_percent / 100) / 100 * capital)),
        ((capital * (max_risk_percent / 100)) /
          (stop_loss_percent * (1 + volatility_percent / 100) / 100 * capital))
          * 100,
        capital * ((capital * (max_risk_percent / 100)) /
          (stop_loss_percent * (1 + volatility_percent / 100) / 100 * capital))
          * (stop_loss_percent / 100),
        stop_loss_percent, 2⟩ := by
  simp [calculate_position_size, h1.not_le, h2.not_le]

/-- Witness for C2 at a concrete input. -/
theorem calculate_position_size_spec_witness :
    (0 : ℚ) < 5 ∧ (0 : ℚ) < 10 ∧
      calculate_position_size 1000 2 5 10 =
        .ok ⟨(1000 * (2 / 100)) / (5 * (1 + 10 / 100) / 100 * 1000),
          1000 * ((1000 * (2 / 100)) / (5 * (1 + 10 / 100) / 100 * 1000)),
          ((1000 * (2 / 100)) / (5 * (1 + 10 / 100) / 100 * 1000)) * 100,
          1000 * ((1000 * (2 / 100)) / (5 * (1 + 10 / 100) / 100 * 1000))
            * (5 / 100),
          5, 2⟩ :=
  ⟨by norm_num, by norm_num,
    calculate_position_size_spec 1000 2 5 10 (by norm_num) (by norm_num)⟩

/-- C4: a non-positive stop-loss or volatility percent makes
`calculate_position_size` return the error marker (zero position size and
an error message) without computing a position. -/
theorem calculate_position_size_error (capital max_risk_percent
    stop_loss_percent volatility_percent : ℚ)
    (h : stop_loss_percent ≤ 0 ∨ volatility_percent ≤ 0) :
    calculate_position_size capital max_risk_percent stop_loss_percent
      volatility_percent =
      .failure 0 "Некорректные параметры стоп-лосса или волатильности" := by
  simp [calculate_position_size, h]

/-- Witness for C4 at a concrete input. -/
theorem calculate_position_size_error_witness :
    ((0 : ℚ) ≤ 0 ∨ (5 : ℚ) ≤ 0) ∧
      calculate_position_size 1000 2 0 5 =
        .failure 0 "Некорректные параметры стоп-лосса или волатильности" :=
  ⟨Or.inl le_rfl, calculate_position_size_error 1000 2 0 5 (Or.inl le_rfl)⟩

/-- The gain series is pointwise non-negative. -/
theorem gainSeries_nonneg (d : List (Option ℚ)) :
    ∀ x ∈ gainSeries d, 0 ≤ x := by
  intro x hx
  rw [gainSeries, List.mem_map] at hx
  obtain ⟨o, -, rfl⟩ := hx
  cases o with
  | none => exact le_refl 0
  | some v =>
    dsimp only
    split_ifs with h
    · exact h.le
    · exact le_refl 0

/-- The loss series is pointwise non-negative. -/
theorem lossSeries_nonneg (d : List (Option ℚ)) :
    ∀ x ∈ lossSeries d, 0 ≤ x := by
  intro x hx
  rw [lossSeries, List.mem_map] at hx
  obtain ⟨o, -, rfl⟩ := hx
  cases o with
  | none => exact le_refl 0
  | some v =>
    dsimp only
    split_ifs with h
    · exact neg_nonneg.mpr h.le
    · exact le_refl 0

/-- A defined rolling mean of a non-negative series is non-negative. -/
theorem rollingMean_nonneg (w : ℕ) (xs : List ℚ)
    (hxs : ∀ x ∈ xs, 0 ≤ x) :
    ∀ o ∈ rollingMean w xs, ∀ g, o = some g → 0 ≤ g := by
  intro o ho g hg
  rw [rollingMean, List.mem_map] at ho
  obtain ⟨i, -, rfl⟩ := ho
  split_ifs at hg
  rw [Option.some.injEq] at hg
  rw [← hg]
  refine div_nonneg (List.sum_nonneg ?_) (by positivity)
  intro x hx
  exact hxs x (List.mem_of_mem_take (List.mem_of_mem_drop hx))

/-- After the `replace(0, eps)` step, every defined entry of the loss
denominator is strictly positive, so the division in RSI never divides
by zero — also on a constant price series, where every loss mean is `0`
and is replaced by the machine epsilon. -/
theorem lossReplaced_pos (prices : List ℚ) (w : ℕ) :
    ∀ o ∈ replaceZero machineEps
        (rollingMean w (lossSeries (seriesDiff prices))),
      ∀ l, o = some l → 0 < l := by
  intro o ho l hl
  rw [replaceZero, List.mem_map] at ho
  obtain ⟨o', ho', rfl⟩ := ho
  cases o' with
  | none => cases hl
  | some v =>
    have hv : 0 ≤ v :=
      rollingMean_nonneg w _ (lossSeries_nonneg _) (some v) ho' v rfl
    obtain rfl : (if v = 0 then machineEps else v) = l := by
      simpa using hl
    split_ifs with h
    · norm_num [machineEps]
    · exact lt_of_le_of_ne hv (Ne.symm h)

/-- Pointwise facts about two lists transfer to their `zipWith`. -/
theorem forall_mem_zipWith {α β γ : Type} (f : α → β → γ) (P : α → Prop)
    (Q : β → Prop) (R : γ → Prop)
    (h : ∀ a b, P a → Q b → R (f a b)) :
    ∀ as bs, (∀ a ∈ as, P a) → (∀ b ∈ bs, Q b) →
      ∀ c ∈ List.zipWith f as bs, R c := by
  intro as
  induction as with
  | nil =>
    intro bs _ _ c hc
    simp at hc
  | cons a as ih =>
    intro bs hP hQ c hc
    cases bs with
    | nil => simp at hc
    | cons b bs =>
      rw [List.zipWith_cons_cons, List.mem_cons] at hc
      rcases hc with rfl | hc
      · exact h a b (hP a (List.mem_cons_self a as))
          (hQ b (List.mem_cons_self b bs))
      · exact ih bs (fun x hx => hP x (List.mem_cons_of_mem a hx))
          (fun x hx => hQ x (List.mem_cons_of_mem b hx)) c hc

/-- C5: every defined RSI value lies in `[0, 100]` (for any input series,
in particular any non-constant one), and the division producing it never
divides by zero: each defined loss denominator is strictly positive even
on a constant series, because a zero average loss is replaced by the
machine epsilon before dividing. -/
theorem calculate_rsi_safe (prices : List ℚ) (window : ℕ) :
    (∀ o ∈ calculate_rsi prices window, ∀ r, o = some r → 0 ≤ r ∧ r ≤ 100) ∧
      (∀ o ∈ replaceZero machineEps
          (rollingMean window (lossSeries (seriesDiff prices))),
        ∀ l, o = some l → 0 < l) := by
  refine ⟨?_, lossReplaced_pos prices window⟩
  rw [calculate_rsi]
  refine forall_mem_zipWith _
    (fun o => ∀ g, o = some g → 0 ≤ g)
    (fun o => ∀ l, o = some l → 0 < l)
    (fun o => ∀ r, o = some r → 0 ≤ r ∧ r ≤ 100)
    ?_ _ _
    (rollingMean_nonneg window _ (gainSeries_nonneg _))
    (lossReplaced_pos prices window)
  intro a b hP hQ r hr
  cases a with
  | none => cases hr
  | some g =>
    cases b with
    | none => cases hr
    | some l =>
      obtain rfl : 100 - 100 / (1 + g / l) = r := by simpa using hr
      have hg : 0 ≤ g := hP g rfl
      have hl : 0 < l := hQ l rfl
      have hq : 0 ≤ g / l := div_nonneg hg hl.le
      have h1 : (1 : ℚ) ≤ 1 + g / l := by linarith
      have hb1 : 100 / (1 + g / l) ≤ 100 := div_le_self (by norm_num) h1
      have hb2 : 0 ≤ 100 / (1 + g / l) :=
        div_nonneg (by norm_num) (by linarith)
      constructor <;> linarith

/-- Witness for C5 at a concrete input. -/
theorem calculate_rsi_safe_witness :
    some 0 ∈ calculate_rsi [1, 2] 1 ∧ (0 ≤ (0 : ℚ) ∧ (0 : ℚ) ≤ 100) := by
  have hmem : some 0 ∈ calculate_rsi [1, 2] 1 := by
    have h : calculate_rsi [1, 2] 1 =
        [some 0, some (100 - 100 / (1 + 1 / machineEps))] := by
      norm_num [calculate_rsi, seriesDiff, gainSeries, lossSeries,
        rollingMean, replaceZero, List.range_succ]
    rw [h]
    exact List.mem_cons_self _ _
  exact ⟨hmem, (calculate_rsi_safe [1, 2] 1).1 (some 0) hmem 0 rfl⟩

/-- Entries of a sorted list are monotone in the index. -/
theorem getD_mono_of_sorted {s : List ℚ} (hs : s.Sorted (· ≤ ·))
    {i j : ℕ} (hij : i ≤ j) (hj : j < s.length) :
    s.getD i 0 ≤ s.getD j 0 := by
  have hi : i < s.length := lt_of_le_of_lt hij hj
  rw [s.getD_eq_getElem 0 hi, s.getD_eq_getElem 0 hj]
  exact hs.rel_get_of_le (a := ⟨i, hi⟩) (b := ⟨j, hj⟩) hij

/-- The linear interpolation at `h` is at least the sorted entry at
`⌊h⌋`. -/
theorem sortedInterp_lower {s : List ℚ} (hs : s.Sorted (· ≤ ·)) {h : ℚ}
    (hn : (⌈h⌉).toNat < s.length) :
    s.getD (⌊h⌋).toNat 0 ≤ sortedInterp s h := by
  have hle : s.getD (⌊h⌋).toNat 0 ≤ s.getD (⌈h⌉).toNat 0 :=
    getD_mono_of_sorted hs (Int.toNat_le_toNat (Int.floor_le_ceil h)) hn
  have hfr : 0 ≤ h - ⌊h⌋ := sub_nonneg.mpr (Int.floor_le h)
  have := mul_nonneg hfr (sub_nonneg.mpr hle)
  rw [sortedInterp]
  linarith

/-- The linear interpolation at `h` is at most the sorted entry at
`⌈h⌉`. -/
theorem sortedInterp_upper {s : List ℚ} (hs : s.Sorted (· ≤ ·)) {h : ℚ}
    (hn : (⌈h⌉).toNat < s.length) :
    sortedInterp s h ≤ s.getD (⌈h⌉).toNat 0 := by
  have hle : s.getD (⌊h⌋).toNat 0 ≤ s.getD (⌈h⌉).toNat 0 :=
    getD_mono_of_sorted hs (Int.toNat_le_toNat (Int.floor_le_ceil h)) hn
  have ht1 : h - ⌊h⌋ < 1 := by
    have := Int.sub_one_lt_floor h
    linarith
  have := mul_nonneg (by linarith : (0 : ℚ) ≤ 1 - (h - ⌊h⌋))
    (sub_nonneg.mpr hle)
  rw [sortedInterp]
  nlinarith

/-- On a sorted list the linear interpolation is monotone in the virtual
index. -/
theorem sortedInterp_mono {s : List ℚ} (hs : s.Sorted (· ≤ ·)) {h1 h2 : ℚ}
    (h0 : 0 ≤ h1) (h12 : h1 ≤ h2) (hn : (⌈h2⌉).toNat < s.length) :
    sortedInterp s h1 ≤ sortedInterp s h2 := by
  have h02 : 0 ≤ h2 := le_trans h0 h12
  have hc12 : ⌈h1⌉ ≤ ⌈h2⌉ := Int.ceil_mono h12
  have hn1 : (⌈h1⌉).toNat < s.length :=
    lt_of_le_of_lt (Int.toNat_le_toNat hc12) hn
  have hfl12 : ⌊h1⌋ ≤ ⌊h2⌋ := Int.floor_mono h12
  rcases eq_or_lt_of_le hfl12 with heq | hlt
  · by_cases hint : h1 = (⌊h1⌋ : ℚ)
    · have hz : sortedInterp s h1 = s.getD (⌊h1⌋).toNat 0 := by
        rw [sortedInterp, ← hint]
        ring
      rw [hz, heq]
      exact sortedInterp_lower hs hn
    · have hlt1 : (⌊h1⌋ : ℚ) < h1 :=
        lt_of_le_of_ne (Int.floor_le h1) (Ne.symm hint)
      have hceil1 : ⌈h1⌉ = ⌊h1⌋ + 1 := by
        have hlb : ⌊h1⌋ < ⌈h1⌉ := Int.lt_ceil.mpr hlt1
        have hub : ⌈h1⌉ ≤ ⌊h1⌋ + 1 := Int.ceil_le_floor_add_one h1
        omega
      have hceil2 : ⌈h2⌉ = ⌊h2⌋ + 1 := by
        have hlt2 : (⌊h2⌋ : ℚ) < h2 := by
          rw [← heq]
          calc (⌊h1⌋ : ℚ) < h1 := hlt1
          _ ≤ h2 := h12
        have hlb : ⌊h2⌋ < ⌈h2⌉ := Int.lt_ceil.mpr hlt2
        have hub : ⌈h2⌉ ≤ ⌊h2⌋ + 1 := Int.ceil_le_floor_add_one h2
        omega
      have hle : s.getD (⌊h1⌋).toNat 0 ≤ s.getD (⌈h1⌉).toNat 0 :=
        getD_mono_of_sorted hs (Int.toNat_le_toNat (Int.floor_le_ceil h1)) hn1
      rw [sortedInterp, sortedInterp, ← heq, hceil2, ← heq, ← hceil1]
      nlinarith
  · calc sortedInterp s h1 ≤ s.getD (⌈h1⌉).toNat 0 :=
      sortedInterp_upper hs hn1
    _ ≤ s.getD (⌊h2⌋).toNat 0 := by
      refine getD_mono_of_sorted hs (Int.toNat_le_toNat ?_)
        (lt_of_le_of_lt (Int.toNat_le_toNat (Int.floor_le_ceil h2)) hn)
      have := Int.ceil_le_floor_add_one h1
      omega
    _ ≤ sortedInterp s h2 := sortedInterp_lower hs hn

/-- `np.percentile` with linear interpolation is monotone in `q` on
`[0, 100]`. -/
theorem percentile_mono (xs : List ℚ) {q1 q2 : ℚ} (h0 : 0 ≤ q1)
    (h12 : q1 ≤ q2) (h100 : q2 ≤ 100) :
    percentile xs q1 ≤ percentile xs q2 := by
  rw [percentile, percentile]
  by_cases hn : (List.insertionSort (· ≤ ·) xs).length = 0
  · simp [hn]
  · simp only [hn, if_false]
    set s := List.insertionSort (· ≤ ·) xs with hs_def
    have hs : s.Sorted (· ≤ ·) := List.sorted_insertionSort _ xs
    have hlen : 1 ≤ s.length := Nat.one_le_iff_ne_zero.mpr hn
    have hq : (0 : ℚ) ≤ (s.length : ℚ) - 1 := by
      have h1 : (1 : ℚ) ≤ (s.length : ℚ) := by exact_mod_cast hlen
      linarith
    refine sortedInterp_mono hs
      (mul_nonneg (div_nonneg h0 (by norm_num)) hq)
      (mul_le_mul_of_nonneg_right (by linarith) hq) ?_
    have hh2 : q2 / 100 * ((s.length : ℚ) - 1) ≤ (s.length : ℚ) - 1 := by
      nlinarith
    have hc : ⌈q2 / 100 * ((s.length : ℚ) - 1)⌉ ≤ (s.length : ℤ) - 1 := by
      rw [Int.ceil_le]
      push_cast
      linarith
    omega

/-- Reduction of `Int.ceil` to `Int.floor`, used to evaluate ceilings on
concrete rationals. -/
theorem intCeil_eq_neg_floor_neg (a : ℚ) : ⌈a⌉ = -⌊-a⌋ := by
  rw [Int.floor_neg, neg_neg]

/-- C6 counterexample: on the all-positive fixed simulated sample
`1, …, 10` the VaR at confidence `0.99` is strictly below the VaR at
confidence `0.95`, because the final `abs(...)` flips the comparison when
the lower-tail percentile is positive. -/
theorem calculate_var_confidence_counterexample :
    calculate_var_monte_carlo [1, 2, 3, 4, 5, 6, 7, 8, 9, 10] 0.99 <
      calculate_var_monte_carlo [1, 2, 3, 4, 5, 6, 7, 8, 9, 10] 0.95 := by
  norm_num [calculate_var_monte_carlo, percentile, sortedInterp,
    intCeil_eq_neg_floor_neg, List.insertionSort, List.orderedInsert]
  rw [abs_of_pos (by norm_num), abs_of_pos (by norm_num)]
  norm_num

/-- C6 amended: for a fixed draw of simulated returns, the underlying
`(1-confidence)`-percentile is monotonically non-increasing in the
confidence level; hence VaR (its absolute value) is monotonically
non-decreasing in the confidence level whenever the percentile at the
smaller confidence is non-positive, i.e. whenever the sampled lower tail
is actually a loss.  (Without that proviso the claim is refuted by
`calculate_var_confidence_counterexample`.) -/
theorem calculate_var_monotone_of_loss_tail (xs : List ℚ) {c1 c2 : ℚ}
    (h0 : 0 ≤ c1) (h12 : c1 ≤ c2) (h1 : c2 ≤ 1)
    (hneg : percentile xs (100 * (1 - c1)) ≤ 0) :
    calculate_var_monte_carlo xs c1 ≤ calculate_var_monte_carlo xs c2 := by
  rw [calculate_var_monte_carlo, calculate_var_monte_carlo]
  have hq0 : (0 : ℚ) ≤ 100 * (1 - c2) := by linarith
  have hq12 : 100 * (1 - c2) ≤ 100 * (1 - c1) := by linarith
  have hq100 : 100 * (1 - c1) ≤ 100 := by linarith
  have hmono : percentile xs (100 * (1 - c2)) ≤
      percentile xs (100 * (1 - c1)) :=
    percentile_mono xs hq0 hq12 hq100
  rw [abs_of_nonpos hneg, abs_of_nonpos (le_trans hmono hneg)]
  linarith

/-- Witness for the amended C6 at a concrete input. -/
theorem calculate_var_monotone_of_loss_tail_witness :
    (0 : ℚ) ≤ 0.95 ∧ (0.95 : ℚ) ≤ 0.99 ∧ (0.99 : ℚ) ≤ 1 ∧
      percentile [-10, -5, 1, 2] (100 * (1 - 0.95)) ≤ 0 ∧
      calculate_var_monte_carlo [-10, -5, 1, 2] 0.95 ≤
        calculate_var_monte_carlo [-10, -5, 1, 2] 0.99 := by
  have hneg : percentile [-10, -5, 1, 2] (100 * (1 - (0.95 : ℚ))) ≤ 0 := by
    norm_num [percentile, sortedInterp, intCeil_eq_neg_floor_neg,
      List.insertionSort, List.orderedInsert]
  exact ⟨by norm_num, by norm_num, by norm_num, hneg,
    calculate_var_monotone_of_loss_tail _ (by norm_num) (by norm_num)
      (by norm_num) hneg⟩

/-- `splitOnDash` always yields at least one part. -/
theorem splitOnDash_ne_nil (cs : List Char) : splitOnDash cs ≠ [] := by
  cases cs with
  | nil => simp [splitOnDash]
  | cons c cs =>
    rw [splitOnDash]
    cases hs : splitOnDash cs with
    | nil => simp
    | cons p ps =>
      dsimp only
      split_ifs <;> simp

/-- A dash-free character list splits into the single part it is. -/
theorem splitOnDash_no_dash (xs : List Char) (hx : ∀ c ∈ xs, c ≠ '-') :
    splitOnDash xs = [xs] := by
  induction xs with
  | nil => rfl
  | cons c cs ih =>
    rw [splitOnDash, ih fun x hx' => hx x (List.mem_cons_of_mem c hx')]
    exact if_neg (hx c (List.mem_cons_self c cs))

/-- Splitting at an explicit separator after a dash-free prefix peels off
exactly that prefix. -/
theorem splitOnDash_append (xs ys : List Char)
    (hx : ∀ c ∈ xs, c ≠ '-') :
    splitOnDash (xs ++ '-' :: ys) = xs :: splitOnDash ys := by
  induction xs with
  | nil =>
    rw [List.nil_append, splitOnDash]
    cases hs : splitOnDash ys with
    | nil => exact absurd hs (splitOnDash_ne_nil ys)
    | cons p ps => simp
  | cons c cs ih =>
    rw [List.cons_append, splitOnDash,
      ih fun x hx' => hx x (List.mem_cons_of_mem c hx')]
    exact if_neg (hx c (List.mem_cons_self c cs))

/-- On a non-empty all-digit string, the `float` model returns the digit
value. -/
theorem parseFloat_digits (cs : List Char) (h1 : cs ≠ [])
    (h2 : cs.all Char.isDigit) :
    parseFloat cs = some ((digitsVal cs : ℚ)) := by
  have hspan : cs.span Char.isDigit = (cs, []) := by
    rw [List.span_eq_take_drop,
      List.takeWhile_eq_self_iff.mpr (by simpa [List.all_eq_true] using h2),
      List.dropWhile_eq_nil_iff.mpr (by simpa [List.all_eq_true] using h2)]
  rw [parseFloat, hspan]
  exact if_neg h1

/-- C8: a canonical instrument string of the grammar
`ASSET-EXPIRATION-STRIKE-TYPE` — dash-free asset, an expiration accepted
by `strptime('%d%b%y')`, a non-empty digit strike, a `C`/`P` type —
parses successfully into exactly its four fields, so rejoining the parsed
fields with `'-'` reconstructs the original string. -/
theorem parse_round_trip (s a e k t : String) (d : ExpiryDate)
    (ha : ∀ c ∈ a.data, c ≠ '-') (he : ∀ c ∈ e.data, c ≠ '-')
    (htd : ∀ c ∈ t.data, c ≠ '-')
    (hed : parseExpiration e.data = some d)
    (hk1 : k.data ≠ []) (hk2 : k.data.all Char.isDigit)
    (_ht : t = "C" ∨ t = "P")
    (hs : s = a ++ "-" ++ e ++ "-" ++ k ++ "-" ++ t) :
    parse s = some ⟨a, e, (digitsVal k.data : ℚ), t, some d⟩ ∧
      a ++ "-" ++ e ++ "-" ++ k ++ "-" ++ t = s := by
  refine ⟨?_, hs.symm⟩
  have hk' : ∀ c ∈ k.data, c ≠ '-' := by
    intro c hc heq
    have hd := List.all_eq_true.mp hk2 c hc
    rw [heq] at hd
    exact absurd hd (by decide)
  have hdata : (a ++ "-" ++ e ++ "-" ++ k ++ "-" ++ t).data =
      a.data ++ '-' :: (e.data ++ '-' :: (k.data ++ '-' :: t.data)) := by
    simp [String.data_append]
  have hsplit : splitOnDash (a ++ "-" ++ e ++ "-" ++ k ++ "-" ++ t).data =
      [a.data, e.data, k.data, t.data] := by
    rw [hdata, splitOnDash_append _ _ ha, splitOnDash_append _ _ he,
      splitOnDash_append _ _ hk', splitOnDash_no_dash _ htd]
  rw [hs, parse, hsplit]
  dsimp only
  rw [parseFloat_digits _ hk1 hk2, hed]

/-- Witness for C8 at a concrete input. -/
theorem parse_round_trip_witness :
    parse "BTC-28MAR25-110000-C" =
        some ⟨"BTC", "28MAR25", (digitsVal "110000".data : ℚ), "C",
          some ⟨2025, 3, 28⟩⟩ ∧
      "BTC" ++ "-" ++ "28MAR25" ++ "-" ++ "110000" ++ "-" ++ "C" =
        "BTC-28MAR25-110000-C" :=
  parse_round_trip "BTC-28MAR25-110000-C" "BTC" "28MAR25" "110000" "C"
    ⟨2025, 3, 28⟩ (by decide) (by decide) (by decide) (by decide)
    (by decide) (by decide) (Or.inl rfl) (by decide)

/-- C9: on a malformed instrument string, `Trade.parse_instrument_name`
does not return the promised best-effort fallback: its fallback branch
first calls `logger.error`, but `trade.py` never imports or defines
`logger`, so the call raises `NameError`.  The second conjunct evaluates
the fallback value the branch was meant to build (asset from the first
segment, placeholder expiration, zero strike, placeholder type). -/
theorem parse_instrument_name_name_error :
    Trade.parse_instrument_name "INVALID" = Trade.ParseNameResult.nameError ∧
      Trade.intendedFallback "INVALID" = ⟨"INVALID", "UNKNOWN", 0, "?"⟩ :=
  ⟨by decide, by decide⟩

open BlockTrades in
/-- A successful `calculate_delta` pins the option type to `C` or `P`. -/
theorem calculate_delta_some_type (Phi : ℝ → ℝ) (rate current_price strike : ℝ)
    (days_to_expiry : ℤ) (volatility : ℝ) (option_type : String)
    (m : OptionMetrics)
    (h : calculate_delta Phi rate current_price strike days_to_expiry
      volatility option_type = some m) :
    option_type = "C" ∨ option_type = "P" := by
  simp only [calculate_delta] at h
  split_ifs at h <;>
    first
      | exact Or.inl (by assumption)
      | exact Or.inr (by assumption)

open BlockTrades in
/-- Every trade surviving `_analyze_data` carries a `C` or `P` option
type, because `calculate_delta` rejects every other type. -/
theorem analyzeData_type {Phi : ℝ → ℝ} {rate : ℝ}
    {daysFromNow : ExpiryDate → ℤ} {trades : List TradeRow} :
    ∀ t ∈ analyzeData Phi rate daysFromNow trades,
      t.info.option_type = "C" ∨ t.info.option_type = "P" := by
  intro t ht
  rw [analyzeData, List.mem_filterMap] at ht
  obtain ⟨trade, -, hmap⟩ := ht
  rcases hp : parse trade.instrument_name with _ | info
  · rw [hp] at hmap
    cases hmap
  · rw [hp] at hmap
    dsimp only at hmap
    rcases hd : info.expiry_date with _ | d
    · rw [hd] at hmap
      cases hmap
    · rw [hd] at hmap
      dsimp only at hmap
      rcases hm : calculate_delta Phi rate trade.index_price
          ((info.strike : ℝ)) (daysFromNow d) trade.iv info.option_type
        with _ | m
      · rw [hm] at hmap
        cases hmap
      · rw [hm] at hmap
        obtain rfl : AnalyzedTrade.mk trade m info = t := by
          simpa using hmap
        exact calculate_delta_some_type _ _ _ _ _ _ _ _ hm

/-- Partition counting: when every element satisfies exactly one of two
boolean predicates, the two filtered lengths add up to the length. -/
theorem length_filter_add_length_filter {α : Type} (l : List α)
    (p q : α → Bool)
    (h : ∀ x ∈ l, (p x = true ∧ q x = false) ∨
      (p x = false ∧ q x = true)) :
    (l.filter p).length + (l.filter q).length = l.length := by
  induction l with
  | nil => rfl
  | cons a l ih =>
    have ih' := ih fun x hx => h x (List.mem_cons_of_mem a hx)
    rcases h a (List.mem_cons_self a l) with ⟨hp, hq⟩ | ⟨hp, hq⟩ <;>
      simp [List.filter_cons, hp, hq] <;> omega

open BlockTrades in
/-- C10: for every list of input trades, whenever the block-trade stage
reports aggregates, `calls_count + puts_count = total_trades`: every
analysed trade has option type exactly `C` or `P`, because
`calculate_delta` returns `None` for any other type and trades without
computed metrics are excluded. -/
theorem calls_puts_partition {α : Type} (Phi : ℝ → ℝ) (rate : ℝ)
    (daysFromNow : ExpiryDate → ℤ)
    (strategyAnalysis : List AnalyzedTrade → α) (trades : List TradeRow) :
    callsPutsConsistent
      (prepareResults strategyAnalysis (analyzeData Phi rate daysFromNow
        trades)) := by
  rw [prepareResults]
  split_ifs with hempty
  · trivial
  · refine length_filter_add_length_filter _ _ _ fun t ht => ?_
    rcases analyzeData_type t ht with hC | hP
    · exact Or.inl ⟨by simp [hC], by simp [hC]⟩
    · exact Or.inr ⟨by simp [hP], by simp [hP]⟩
